import Mathlib

/-
Verification of the api_monitor_go monitoring service against its
natural-language specification.  The Go source is shallowly embedded:
pure helpers become Lean functions, the stateful scheduler becomes an
explicit state-passing step function, machine integers become Int/Nat,
Go `time.Time`/`time.Duration` become Int ticks, and fallible code
returns Option/Except.  Strings are modelled as Lean strings whose
characters stand for Go bytes (faithful for the ASCII data these
functions handle); Go byte-length truncation is therefore character
truncation here.
-/

namespace ApiMonitor

/- ------------------------------------------------------------------ -/
/- Generic string helpers (Go strings package operations used below)  -/
/- ------------------------------------------------------------------ -/

/-- Test whether `p` is an initial run of `s` (character lists). -/
def charsStart : List Char → List Char → Bool
  | _, [] => true
  | [], _ :: _ => false
  | a :: s, b :: p => a == b && charsStart s p

/-- Test whether `p` occurs contiguously inside `s` (Go strings.Contains on
character lists). -/
def charsHave : List Char → List Char → Bool
  | [], p => p.isEmpty
  | a :: s, p => charsStart (a :: s) p || charsHave s p

/-- Go strings.Contains. -/
def strContains (s pat : String) : Bool :=
  charsHave s.toList pat.toList

/-- Go strings.ContainsAny: some character of `chars` occurs in `s`. -/
def strContainsAny (s chars : String) : Bool :=
  s.toList.any (fun c => chars.toList.contains c)

/-- Whitespace as Go unicode.IsSpace sees it in the Latin-1 range (the data
handled here is ASCII). -/
def goIsSpace (c : Char) : Bool :=
  c == ' ' || c == '\t' || c == '\n' || c == '\x0b' || c == '\x0c' || c == '\r' ||
    c.toNat == 133 || c.toNat == 160

/-- Go strings.TrimSpace on the character-list model. -/
def strTrim (s : String) : String :=
  String.mk (((s.toList.dropWhile goIsSpace).reverse.dropWhile goIsSpace).reverse)

/-- ASCII case folding of one character (Go strings.ToLower restricted to
the ASCII data handled here). -/
def lowerChar (c : Char) : Char :=
  if 65 ≤ c.toNat ∧ c.toNat ≤ 90 then Char.ofNat (c.toNat + 32) else c

/-- Go strings.ToLower. -/
def strToLower (s : String) : String :=
  String.mk (s.toList.map lowerChar)

/- ------------------------------------------------------------------ -/
/- C3: route classification (part_002: routeRules, chooseRoute)       -/
/- ------------------------------------------------------------------ -/

/-- Go `strings.SplitN(s, "/", 2)` keeps at most two parts, splitting at the
first separator; `parts[len(parts)-1]` is therefore everything after the FIRST
slash when one is present, and the whole string otherwise. -/
def segAfterFirstSlash (l : List Char) : List Char :=
  if l.contains '/' then (l.dropWhile (fun c => c != '/')).drop 1 else l

/-- Route rule table from the source (`routeRules`).  Each Go regexp there is
a literal substring pattern, except `gpt-5\.[123]` which denotes exactly the
three literals it expands to; `MatchString` is substring search. -/
def routeRules : List ((String → Bool) × String) :=
  [ (fun s => strContains s "claude", "anthropic"),
    (fun s => strContains s "gemini", "gemini"),
    (fun s => strContains s "codex", "responses"),
    (fun s => strContains s "gpt-5.1" || strContains s "gpt-5.2" || strContains s "gpt-5.3",
      "responses") ]

/-- The `actual` string chooseRoute classifies: the part of the model id
after the first slash, lowercased. -/
def routeActual (modelID : String) : String :=
  strToLower (String.mk (segAfterFirstSlash modelID.toList))

/-- MonitorService.chooseRoute: lowercase the part of the model id after the
first slash and take the first matching rule, defaulting to "chat". -/
def chooseRoute (modelID : String) : String :=
  match routeRules.find? (fun r => r.1 (routeActual modelID)) with
  | some r => r.2
  | none => "chat"

/-- Everything after the LAST slash (the trailing path segment). -/
def segAfterLastSlash (l : List Char) : List Char :=
  (l.reverse.takeWhile (fun c => c != '/')).reverse

/-- Modelled from the spec: route classification as the claim words it, i.e.
the trailing path segment (after the LAST slash) is lowercased and tested
against the same ordered rules.  Used only to exhibit where the source
diverges from this reading. -/
def chooseRouteTrailingSeg (modelID : String) : String :=
  let actual := strToLower (String.mk (segAfterLastSlash modelID.toList))
  match routeRules.find? (fun r => r.1 actual) with
  | some r => r.2
  | none => "chat"

/- ------------------------------------------------------------------ -/
/- JSON values (Go any after encoding/json.Unmarshal)                  -/
/- ------------------------------------------------------------------ -/

/-- Parsed JSON value as Go json.Unmarshal produces into `any`: nil, bool,
number (restricted to integers — every number these probes classify is an
integral float64), string, []any, map[string]any (as an association list;
lookups take the first binding, mirroring unique map keys). -/
inductive JValue where
  | jnull
  | jbool (b : Bool)
  | jnum (n : Int)
  | jstr (s : String)
  | jarr (xs : List JValue)
  | jobj (fields : List (String × JValue))

/- Nesting depth of a JSON value, used as recursion fuel for serialisers. -/
mutual
def jdepth : JValue → Nat
  | .jarr xs => jdepthList xs + 1
  | .jobj fs => jdepthFields fs + 1
  | _ => 1
def jdepthList : List JValue → Nat
  | [] => 0
  | x :: xs => max (jdepth x) (jdepthList xs)
def jdepthFields : List (String × JValue) → Nat
  | [] => 0
  | f :: fs => max (jdepth f.2) (jdepthFields fs)
end

/-- Hexadecimal digit as Go strconv prints it (lowercase). -/
def hexDigit (n : Nat) : Char :=
  if n < 10 then Char.ofNat (48 + n) else Char.ofNat (87 + n)

/-- Go encoding/json string escaping for one character: quote, backslash,
newline, carriage return and tab get two-character escapes, other control
characters and the HTML-sensitive three get \u00xx, U+2028/U+2029 get \u202x,
anything else passes through. -/
def jsonEscapeChar (c : Char) : String :=
  if c = '"' then "\\\""
  else if c = '\\' then "\\\\"
  else if c = '\n' then "\\n"
  else if c = '\r' then "\\r"
  else if c = '\t' then "\\t"
  else if c = '<' ∨ c = '>' ∨ c = '&' ∨ c.toNat < 32 then
    "\\u00" ++ String.mk [hexDigit (c.toNat / 16), hexDigit (c.toNat % 16)]
  else if c.toNat = 0x2028 ∨ c.toNat = 0x2029 then
    "\\u202" ++ String.mk [hexDigit (c.toNat % 16)]
  else String.mk [c]

def jsonEscape (s : String) : String :=
  String.join (s.toList.map jsonEscapeChar)

/-- Object fields sorted by key, as Go json.Marshal sorts map keys. -/
def sortFields (fs : List (String × JValue)) : List (String × JValue) :=
  fs.mergeSort (fun a b => a.1 ≤ b.1)

/-- Go json.Marshal of a JValue (fuelled by nesting depth; `goMarshal` below
always supplies enough). -/
def goMarshalF : Nat → JValue → String
  | _, .jnull => "null"
  | _, .jbool true => "true"
  | _, .jbool false => "false"
  | _, .jnum n => toString n
  | _, .jstr s => "\"" ++ jsonEscape s ++ "\""
  | 0, .jarr _ => ""
  | 0, .jobj _ => ""
  | n + 1, .jarr xs => "[" ++ String.intercalate "," (xs.map (goMarshalF n)) ++ "]"
  | n + 1, .jobj fs =>
    "\x7b" ++
      String.intercalate ","
        ((sortFields fs).map (fun f => "\"" ++ jsonEscape f.1 ++ "\":" ++ goMarshalF n f.2)) ++
      "\x7d"

def goMarshal (v : JValue) : String := goMarshalF (jdepth v) v

/-- Go fmt.Sprintf %v of a JValue (fuelled by nesting depth): numbers and
bools print plainly, strings verbatim, slices space-separated in brackets,
maps as map[k:v ...] with sorted keys. -/
def goFormatF : Nat → JValue → String
  | _, .jnull => "<nil>"
  | _, .jbool true => "true"
  | _, .jbool false => "false"
  | _, .jnum n => toString n
  | _, .jstr s => s
  | 0, .jarr _ => ""
  | 0, .jobj _ => ""
  | n + 1, .jarr xs => "[" ++ String.intercalate " " (xs.map (goFormatF n)) ++ "]"
  | n + 1, .jobj fs =>
    "map[" ++
      String.intercalate " " ((sortFields fs).map (fun f => f.1 ++ ":" ++ goFormatF n f.2)) ++
    "]"

def goFormatAny (v : JValue) : String := goFormatF (jdepth v) v

/- ------------------------------------------------------------------ -/
/- C6: truncStr and checkResponseBodyForError (part_002)               -/
/- ------------------------------------------------------------------ -/

/-- truncStr from the source: keep the first maxLen bytes. -/
def truncStr (s : String) (maxLen : Nat) : String :=
  if s.length > maxLen then String.mk (s.toList.take maxLen) else s

/-- The `error` field branch of checkResponseBodyForError.  Returns none when
the field is absent or JSON null (Go: `exists && errVal != nil` fails), the
message derived from it otherwise. -/
def checkErrField (m : List (String × JValue)) : Option String :=
  match m.lookup "error" with
  | none => none
  | some .jnull => none
  | some (.jstr e) => some e
  | some (.jobj em) =>
    match em.lookup "message" with
    | some (.jstr msg) =>
      if msg = "" then some (truncStr (goMarshal (.jobj em)) 500) else some msg
    | _ => some (truncStr (goMarshal (.jobj em)) 500)
  | some e => some (truncStr (goFormatAny e) 500)

/-- The `success:false` branch: only fires when `success` is boolean false
and `message` is a string (possibly empty, as in the source). -/
def checkSuccessField (m : List (String × JValue)) : Option String :=
  match m.lookup "success" with
  | some (.jbool false) =>
    match m.lookup "message" with
    | some (.jstr msg) => some msg
    | _ => none
  | _ => none

/-- The nonzero/non-200 `code` branch (toFloat64 accepts any JSON number). -/
def checkCodeField (m : List (String × JValue)) : Option String :=
  match m.lookup "code" with
  | some (.jnum c) =>
    if c ≠ 0 ∧ c ≠ 200 then
      match m.lookup "message" with
      | some (.jstr msg) => some ("[" ++ toString c ++ "] " ++ msg)
      | _ => none
    else none
  | _ => none

/-- checkResponseBodyForError from the source: a non-object body yields "";
otherwise the error field, then success:false+message, then code+message are
consulted in order, and "" when nothing matched. -/
def checkResponseBodyForError (body : JValue) : String :=
  match body with
  | .jobj m =>
    match checkErrField m with
    | some s => s
    | none =>
      match checkSuccessField m with
      | some s => s
      | none => (checkCodeField m).getD ""
  | _ => ""

/- ------------------------------------------------------------------ -/
/- Response text extraction (part_002: extractTextFromChat)            -/
/- ------------------------------------------------------------------ -/

/-- The keyed-field loop inside extractTextFromChat: first key whose value is
a string with non-blank trim, trimmed and truncated to 500. -/
def firstNonBlankField (msg : List (String × JValue)) : List String → Option String
  | [] => none
  | k :: ks =>
    match msg.lookup k with
    | some (.jstr v) =>
      if strTrim v ≠ "" then some (truncStr (strTrim v) 500) else firstNonBlankField msg ks
    | _ => firstNonBlankField msg ks

/-- extractTextFromChat from the source: message content/reasoning_content/refusal text of the first choice, else
the `text` field of that choice. -/
def extractTextFromChat (body : JValue) : String :=
  match body with
  | .jobj m =>
    match m.lookup "choices" with
    | some (.jarr (c0 :: _)) =>
      match c0 with
      | .jobj c =>
        match firstNonBlankField
            (match c.lookup "message" with
             | some (.jobj msg) => msg
             | _ => [])
            ["content", "reasoning_content", "refusal"] with
        | some t => t
        | none =>
          match c.lookup "text" with
          | some (.jstr t) => if strTrim t ≠ "" then truncStr (strTrim t) 500 else ""
          | _ => ""
      | _ => ""
    | _ => ""
  | _ => ""

/- ------------------------------------------------------------------ -/
/- C2: detectOne single-probe classification (part_002)                -/
/- ------------------------------------------------------------------ -/

/-- HttpResult from the source: status code, raw body text, parsed JSON body
(jnull when the body was empty or unparsable, as Go leaves `parsed` nil), and
elapsed milliseconds. -/
structure HttpResult where
  statusCode : Int
  text : String
  jsonBody : JValue
  elapsedMs : Int

/-- DetectionResult from the source (json field names in comments match the
Go struct tags; duration and timestamp are seconds as rationals). -/
structure DetectionResult where
  protocol : String
  model : String
  stream : Bool
  duration : Rat
  success : Bool
  transportSuccess : Bool
  toolCallsCount : Nat
  toolCalls : String
  content : String
  timestamp : Rat
  error : Option String
  statusCode : Option Int
  route : String
  endpoint : String

/-- routeToProtocol from the source. -/
def routeToProtocol (route : String) : String :=
  if route = "chat" ∨ route = "responses" then "openai" else route

/-- The buildFail closure of detectOne.  `now` stands for the wall-clock
timestamp taken inside the closure. -/
def buildFail (route modelID : String) (now : Rat) (endpoint message : String)
    (durationS : Rat) (statusCode : Option Int) (transportSuccess : Bool) : DetectionResult :=
  { protocol := routeToProtocol route
    model := modelID
    stream := false
    duration := max 0 durationS
    success := false
    transportSuccess := transportSuccess
    toolCallsCount := 0
    toolCalls := "[]"
    content := ""
    timestamp := now
    error := some message
    statusCode := statusCode
    route := route
    endpoint := endpoint }

/-- The error message computed for a non-200 response (shared by the
validate closure and getModels): body-derived message, else the raw body
text truncated to 500 bytes, else "unknown error". -/
def failMsgFromResponse (res : HttpResult) : String :=
  let msg := checkResponseBodyForError res.jsonBody
  let msg := if msg = "" then truncStr res.text 500 else msg
  if msg = "" then "unknown error" else msg

/-- The validate closure of detectOne, applied once a response was obtained. -/
def validate (route modelID : String) (now : Rat) (endpoint : String)
    (res : HttpResult) (extractor : JValue → String) : DetectionResult :=
  let durationS : Rat := max 0 ((res.elapsedMs : Rat) / 1000)
  if res.statusCode ≠ 200 then
    buildFail route modelID now endpoint
      ("HTTP " ++ toString res.statusCode ++ ": " ++ failMsgFromResponse res)
      durationS (some res.statusCode) true
  else if checkResponseBodyForError res.jsonBody ≠ "" then
    buildFail route modelID now endpoint
      ("response error: " ++ checkResponseBodyForError res.jsonBody)
      durationS (some res.statusCode) true
  else if extractor res.jsonBody = "" then
    buildFail route modelID now endpoint "response parse failed: no readable text"
      durationS (some res.statusCode) true
  else
    { protocol := routeToProtocol route
      model := modelID
      stream := false
      duration := durationS
      success := true
      transportSuccess := true
      toolCallsCount := 0
      toolCalls := "[]"
      content := extractor res.jsonBody
      timestamp := now
      error := none
      statusCode := some res.statusCode
      route := route
      endpoint := endpoint }

/-- One probe of detectOne after the HTTP call: `outcome = none` is a
transport-level failure carrying the transport error text (Go err.Error()),
`outcome = some res` is a received response handed to validate. -/
def detectOneOutcome (route modelID : String) (now : Rat) (endpoint : String)
    (outcome : Option HttpResult) (errMsg : String)
    (extractor : JValue → String) : DetectionResult :=
  match outcome with
  | none => buildFail route modelID now endpoint errMsg 0 none false
  | some res => validate route modelID now endpoint res extractor

/- ------------------------------------------------------------------ -/
/- C4: terminal aggregation of a run (part_002: runTarget)             -/
/- ------------------------------------------------------------------ -/

/-- Totals computed at the end of runTarget: (total, success, fail). -/
def runTotals (rows : List DetectionResult) : Nat × Nat × Nat :=
  let total := rows.length
  let successCount := (rows.filter (fun r => r.success)).length
  (total, successCount, total - successCount)

/-- The cached target status switch at the end of runTarget. -/
def targetStatusOf (total successCount failCount : Nat) : String :=
  if total = 0 then "no_models"
  else if failCount = 0 then "healthy"
  else if successCount = 0 then "down"
  else "degraded"

/- ------------------------------------------------------------------ -/
/- C5: model allow-list filter and max-models cap (part_002)           -/
/- ------------------------------------------------------------------ -/

/-- filterModelsBySelection from the source: selected model names are
trimmed, blank entries dropped; an empty surviving set keeps every model;
otherwise upstream models are kept when literally present in the set. -/
def filterModelsBySelection (models selectedModels : List String) : List String :=
  if models.isEmpty || selectedModels.isEmpty then models
  else
    let allowed := (selectedModels.map strTrim).filter (fun s => s != "")
    if allowed.isEmpty then models
    else models.filter (fun m => allowed.contains m)

/-- The max-models truncation in runTarget: applied after filtering, only
when the cap is positive and the list is longer than the cap. -/
def applyMaxModels (models : List String) (maxModels : Int) : List String :=
  if 0 < maxModels ∧ maxModels < (models.length : Int) then
    models.take maxModels.toNat
  else models

/-- Modelled from the spec: the filter exactly as claim C5 words it — keep
all models when the allow-list is empty, otherwise keep exactly the models
present in the allow-list.  Used only to exhibit where the source diverges
from this reading. -/
def filterModelsClaimC5 (models allowList : List String) : List String :=
  if allowList.isEmpty then models
  else models.filter (fun m => allowList.contains m)

/- ------------------------------------------------------------------ -/
/- C1: trigger/finish state machine (part_002: TriggerTarget)          -/
/- ------------------------------------------------------------------ -/

/-- The slice of a Target that TriggerTarget consults. -/
structure MSTarget where
  enabled : Bool
deriving Repr, DecidableEq

/-- The guarded scheduler state: ids of targets with a run in flight
(Go map[int]bool under ms.mu; modelled as a list so that "at most one run
per id" is a provable invariant rather than a type-level triviality). -/
structure MonState where
  running : List Int

def monInit : MonState := ⟨[]⟩

/-- Result of one TriggerTarget call: the new state, whether a run started,
and the message returned to the caller. -/
structure TriggerOutcome where
  state : MonState
  ok : Bool
  msg : String

/-- MonitorService.TriggerTarget.  The whole check-and-mark sequence runs
under ms.mu in the source, so it is one atomic step here.  `db` stands for
ms.db.GetTarget (none covers both a lookup error and a missing row). -/
def triggerTarget (db : Int → Option MSTarget) (maxParallel : Nat)
    (st : MonState) (targetID : Int) (force : Bool) : TriggerOutcome :=
  match db targetID with
  | none => ⟨st, false, "target not found"⟩
  | some t =>
    if !force && !t.enabled then ⟨st, false, "target disabled"⟩
    else if st.running.contains targetID then ⟨st, false, "target already running"⟩
    else if !force && decide (maxParallel ≤ st.running.length) then
      ⟨st, false, "max parallel targets reached"⟩
    else ⟨⟨targetID :: st.running⟩, true, "target started"⟩

/-- The deferred cleanup in runTargetSafe: the in-flight mark is deleted
when the run finishes. -/
def finishRun (st : MonState) (targetID : Int) : MonState :=
  ⟨st.running.filter (fun j => j != targetID)⟩

/-- An interleaving event: a (forced or scheduled) trigger, or a run
finishing. -/
inductive MonEvent where
  | trigger (id : Int) (force : Bool)
  | finish (id : Int)

def monStep (db : Int → Option MSTarget) (maxParallel : Nat)
    (st : MonState) : MonEvent → MonState
  | .trigger id f => (triggerTarget db maxParallel st id f).state
  | .finish id => finishRun st id

/-- State after an arbitrary interleaving of trigger and finish events,
starting from the empty scheduler. -/
def monRun (db : Int → Option MSTarget) (maxParallel : Nat)
    (evs : List MonEvent) : MonState :=
  evs.foldl (monStep db maxParallel) monInit

/- ------------------------------------------------------------------ -/
/- C7: auth failure protector (security.go)                            -/
/- ------------------------------------------------------------------ -/

/-- authFailurePolicy: window and block duration are clock ticks (Go
time.Duration), max failures a count. -/
structure AuthPolicy where
  window : Int
  maxFailures : Nat
  blockFor : Int

/-- authFailureEntry for one (scope, ip) key.  Go zero times are `none`. -/
structure AuthEntry where
  firstFail : Option Int
  failCount : Nat
  blockedUntil : Option Int
  lastFail : Option Int

/-- isEntryExpired from the source. -/
def isEntryExpired (pol : AuthPolicy) (now : Int) (e : AuthEntry) : Bool :=
  match e.blockedUntil with
  | some b => if now < b then false else expiredByLastFail pol now e
  | none => expiredByLastFail pol now e
where
  expiredByLastFail (pol : AuthPolicy) (now : Int) (e : AuthEntry) : Bool :=
    match e.lastFail with
    | none => true
    | some l => decide (pol.window * 2 < now - l)

/-- RecordFailure on the entry of one (scope, ip) key: reset after an
expired block, restart the window when none is open or the open one is older
than the policy window, count the failure, and arm the block at the
max-failures threshold.  (The opportunistic map-wide pruning in the source
touches only entries that are invisible to IsBlocked and restart-on-failure,
so per-key behaviour is unaffected.) -/
def recordFailure (pol : AuthPolicy) (now : Int) (e : Option AuthEntry) : AuthEntry :=
  let e0 := e.getD ⟨none, 0, none, none⟩
  let e1 :=
    match e0.blockedUntil with
    | some b => if ¬ now < b then { e0 with firstFail := none, failCount := 0, blockedUntil := none } else e0
    | none => e0
  let e2 :=
    match e1.firstFail with
    | none => { e1 with firstFail := some now, failCount := 0 }
    | some f => if pol.window < now - f then { e1 with firstFail := some now, failCount := 0 } else e1
  let e3 := { e2 with failCount := e2.failCount + 1, lastFail := some now }
  if pol.maxFailures ≤ e3.failCount then { e3 with blockedUntil := some (now + pol.blockFor) }
  else e3

/-- IsBlocked on the entry of one (scope, ip) key: blocked with the
remaining duration while now is before blockedUntil; otherwise not blocked,
pruning the entry when it has expired.  Returns ((blocked, remaining),
entry afterwards). -/
def isBlocked (pol : AuthPolicy) (now : Int) (e : Option AuthEntry) :
    (Bool × Int) × Option AuthEntry :=
  match e with
  | none => ((false, 0), none)
  | some en =>
    match en.blockedUntil with
    | some b =>
      if now < b then ((true, b - now), some en)
      else if isEntryExpired pol now en then ((false, 0), none) else ((false, 0), some en)
    | none =>
      if isEntryExpired pol now en then ((false, 0), none) else ((false, 0), some en)

/-- Clear removes the entry outright. -/
def clearEntry : Option AuthEntry := none

/-- A sequence of RecordFailure calls at the given instants. -/
def applyFailures (pol : AuthPolicy) (ts : List Int) (e : Option AuthEntry) : Option AuthEntry :=
  ts.foldl (fun acc t => some (recordFailure pol t acc)) e

/-- Last element of a list of instants, with a default. -/
def lastD (ts : List Int) (d : Int) : Int :=
  match ts with
  | [] => d
  | t :: ts2 => lastD ts2 t

/- ------------------------------------------------------------------ -/
/- C8: proxy target resolution (proxy.go)                              -/
/- ------------------------------------------------------------------ -/

/-- The slice of a Target that proxy resolution consults. -/
structure PTarget where
  id : Int
  enabled : Bool
deriving Repr, DecidableEq

/-- One latest-model-status row (db.GetLatestModelStatusesBatch). -/
structure PModelStatus where
  model : String
  success : Bool

/-- Go strings.EqualFold, modelled as ASCII case folding. -/
def eqFold (a b : String) : Bool := strToLower a == strToLower b

/-- filterProxyCandidates from the source: enabled targets, restricted to
the allow-list of the key when that list is non-empty. -/
def filterProxyCandidates (targets : List PTarget) (allowedTargetIDs : List Int) : List PTarget :=
  targets.filter (fun t => t.enabled && (allowedTargetIDs.isEmpty || allowedTargetIDs.contains t.id))

inductive ProxyErr where
  | noTarget
  | targetNotAllowed
  | targetNotFound
deriving Repr, DecidableEq

/-- Handlers.resolveProxyTarget.  `statuses` stands for the latest model
statuses per target id (the source skips the health preference when that
query fails; the query is modelled as succeeding). -/
def resolveProxyTarget (targets : List PTarget) (statuses : Int → List PModelStatus)
    (allowedTargetIDs : List Int) (model : String) (requestTargetID : Option Int) :
    Except ProxyErr PTarget :=
  let candidates := filterProxyCandidates targets allowedTargetIDs
  match candidates with
  | [] => .error .noTarget
  | c0 :: _ =>
    match requestTargetID with
    | some rid =>
      match candidates.find? (fun c => c.id == rid) with
      | some c => .ok c
      | none =>
        if targets.any (fun t => t.id == rid) then .error .targetNotAllowed
        else .error .targetNotFound
    | none =>
      if strTrim model ≠ "" then
        match candidates.find? (fun c =>
            (statuses c.id).any (fun ms => eqFold ms.model model && ms.success)) with
        | some c => .ok c
        | none =>
          match candidates.find? (fun c =>
              (statuses c.id).any (fun ms => eqFold ms.model model)) with
          | some c => .ok c
          | none => .ok c0
      else .ok c0

/- ------------------------------------------------------------------ -/
/- C9: shell-glob matching (Go path.Match) and modelAllowed (proxy.go) -/
/- ------------------------------------------------------------------ -/

/-- Leading stars of a pattern chunk (the star flag of Go scanChunk). -/
def dropStars : List Char → Bool × List Char
  | '*' :: r => (true, (dropStars r).2)
  | l => (false, l)

/-- The scan loop of Go scanChunk: collect chunk characters up to the next
top-level star, tracking bracket state and skipping escaped characters. -/
def scanBody : Bool → List Char → List Char × List Char
  | _, [] => ([], [])
  | inr, '\\' :: rest =>
    match rest with
    | [] => (['\\'], [])
    | c :: r =>
      let (ch, rst) := scanBody inr r
      ('\\' :: c :: ch, rst)
  | _, '[' :: r =>
    let (ch, rst) := scanBody true r
    ('[' :: ch, rst)
  | _, ']' :: r =>
    let (ch, rst) := scanBody false r
    (']' :: ch, rst)
  | inr, '*' :: r =>
    if inr then
      let (ch, rst) := scanBody inr r
      ('*' :: ch, rst)
    else ([], '*' :: r)
  | inr, c :: r =>
    let (ch, rst) := scanBody inr r
    (c :: ch, rst)

/-- Repeated scanChunk: the pattern cut into (star, chunk) pieces.  Fuelled;
each piece consumes at least one pattern character, so pattern length
suffices. -/
def globChunksF : Nat → List Char → List (Bool × List Char)
  | 0, _ => []
  | _, [] => []
  | n + 1, p =>
    let (star, p1) := dropStars p
    let (chunk, rest) := scanBody false p1
    (star, chunk) :: globChunksF n rest

def globChunks (p : List Char) : List (Bool × List Char) :=
  globChunksF (p.length + 1) p

/-- Go getEsc: one (possibly backslash-escaped) character-class character;
none on a malformed pattern. -/
def globGetEsc : List Char → Option (Char × List Char)
  | [] => none
  | '-' :: _ => none
  | ']' :: _ => none
  | '\\' :: rest =>
    match rest with
    | [] => none
    | c :: r => some (c, r)
  | c :: r => some (c, r)

/-- The range-parsing loop of the character-class case in Go matchChunk: given
the consumed name character `r`, fold every lo-hi range, stopping at the
closing bracket once at least one range was seen.  none on a malformed
class (Go reports ErrBadPattern; the one caller discards the error, so a
malformed pattern behaves as a non-match). -/
def globRangesF : Nat → Char → Bool → Bool → List Char → Option (Bool × List Char)
  | 0, _, _, _, _ => none
  | n + 1, r, acc, sawRange, chunk =>
    match chunk with
    | ']' :: rest =>
      if sawRange then some (acc, rest)
      else none
    | _ =>
      match globGetEsc chunk with
      | none => none
      | some (lo, rest1) =>
        match rest1 with
        | '-' :: rest2 =>
          match globGetEsc rest2 with
          | none => none
          | some (hi, rest3) =>
            globRangesF n r (acc || decide (lo ≤ r ∧ r ≤ hi)) true rest3
        | _ =>
          globRangesF n r (acc || decide (lo ≤ r ∧ r ≤ lo)) true rest1

/-- Go matchChunk: try to consume the chunk from the head of `s`, carrying
the `failed` flag exactly as the source does (pattern syntax keeps being
checked after a mismatch).  some rest on success, none on mismatch or
malformed pattern. -/
def globMatchChunkF : Nat → Bool → List Char → List Char → Option (List Char)
  | 0, _, _, _ => none
  | _, failed, [], s => if failed then none else some s
  | n + 1, failed, '[' :: rest, s =>
    let f := failed || s.isEmpty
    let rs : Char × List Char :=
      match f, s with
      | false, c :: tail => (c, tail)
      | _, _ => (Char.ofNat 0, s)
    let ns : Bool × List Char :=
      match rest with
      | '^' :: rr => (true, rr)
      | _ => (false, rest)
    match globRangesF (ns.2.length + 1) rs.1 false false ns.2 with
    | none => none
    | some (m, rest2) => globMatchChunkF n (f || (m == ns.1)) rest2 rs.2
  | n + 1, failed, '?' :: rest, s =>
    match failed || s.isEmpty, s with
    | false, c :: tail => globMatchChunkF n (c == '/') rest tail
    | f, _ => globMatchChunkF n f rest s
  | n + 1, failed, '\\' :: rest, s =>
    match rest with
    | [] => none
    | c :: restc =>
      match failed || s.isEmpty, s with
      | false, a :: tail => globMatchChunkF n (c != a) restc tail
      | f, _ => globMatchChunkF n f restc s
  | n + 1, failed, c :: rest, s =>
    match failed || s.isEmpty, s with
    | false, a :: tail => globMatchChunkF n (c != a) rest tail
    | f, _ => globMatchChunkF n f rest s

def globMatchChunk (chunk s : List Char) : Option (List Char) :=
  globMatchChunkF (chunk.length + 1) false chunk s

mutual
/- The Pattern loop of Go path.Match over the pre-scanned chunks. -/
def globMatchChunksF : Nat → List (Bool × List Char) → List Char → Bool
  | 0, _, _ => false
  | _, [], name => name.isEmpty
  | n + 1, (star, chunk) :: rest, name =>
    if star && chunk.isEmpty then !(name.contains '/')
    else
      match globMatchChunk chunk name with
      | some t =>
        if t.isEmpty || !rest.isEmpty then globMatchChunksF n rest t
        else if star then globStarSearchF n chunk rest name
        else false
      | none =>
        if star then globStarSearchF n chunk rest name
        else false

/- The star search of Go path.Match: retry the chunk at successive name
positions, never crossing a slash. -/
def globStarSearchF : Nat → List Char → List (Bool × List Char) → List Char → Bool
  | 0, _, _, _ => false
  | _, _, _, [] => false
  | n + 1, chunk, rest, c :: tail =>
    if c == '/' then false
    else
      match globMatchChunk chunk tail with
      | some t =>
        if rest.isEmpty && !t.isEmpty then globStarSearchF n chunk rest tail
        else globMatchChunksF n rest t
      | none => globStarSearchF n chunk rest tail
end

/-- Go path.Match(pattern, name) with the error collapsed into false, which
is how modelAllowed consumes it.  The fuel bounds the number of
(chunk, name-position) states, each visited at most once. -/
def pathMatch (pattern name : String) : Bool :=
  globMatchChunksF ((pattern.length + 2) * (name.length + 2))
    (globChunks pattern.toList) name.toList

/-- modelAllowed from the source: empty allow-list admits everything;
otherwise the trimmed lowercased model must be non-empty and match some
trimmed lowercased rule — by shell glob when the rule contains a
metacharacter, by equality otherwise. -/
def modelAllowed (allowed : List String) (model : String) : Bool :=
  if allowed.isEmpty then true
  else
    let model := strToLower (strTrim model)
    if model = "" then false
    else allowed.any (fun rule =>
      let rule := strToLower (strTrim rule)
      if rule = "" then false
      else if strContainsAny rule "*?[]" then pathMatch rule model
      else rule == model)

/- ------------------------------------------------------------------ -/
/- C10: gateway body cap (proxy.go: handleProxyRequest)               -/
/- ------------------------------------------------------------------ -/

/-- proxyBodyMaxBytes = 10 << 20. -/
def proxyBodyMaxBytes : Nat := 10 * 1024 * 1024

/-- io.ReadAll over io.LimitReader(r.Body, proxyBodyMaxBytes): the first
cap-many bytes of the inbound body, never an oversize error. -/
def readCappedBody (body : List Nat) : List Nat :=
  body.take proxyBodyMaxBytes

/-- The body phase of handleProxyRequest: the capped bytes are what model
extraction sees (when no model was forced by the path) and what is forwarded
upstream via bytes.NewReader.  `extract` stands for
extractModelFromPayload.  Returns (forwarded body, model used). -/
def handleProxyBody (extract : List Nat → String) (forcedModel : String)
    (body : List Nat) : List Nat × String :=
  let b := readCappedBody body
  let model := if strTrim forcedModel = "" then extract b else strTrim forcedModel
  (b, model)

/- ------------------------------------------------------------------ -/
/- Shared concrete fixtures                                            -/
/- ------------------------------------------------------------------ -/

/-- A minimal well-formed chat-completions body whose first choice message
content is "hi". -/
def chatBodyHi : JValue :=
  .jobj [("choices", .jarr [.jobj [("message", .jobj [("content", .jstr "hi")])]])]

/-- A 601-character error text, longer than the 500-byte truncation limit. -/
def longErrMsg : String := String.mk (List.replicate 601 'a')

/-- A store with three enabled targets, ids 1..3. -/
def dbThree : Int → Option MSTarget := fun i =>
  if i = 1 ∨ i = 2 ∨ i = 3 then some ⟨true⟩ else none

/- ================================================================== -/
/- Theorems                                                            -/
/- ================================================================== -/

/-- C3 counterexample: the claim reads the classified text as the segment
after the LAST slash, under which "vendor/claude/v1" classifies by "v1" and
yields "chat"; the source classifies everything after the FIRST slash
("claude/v1"), yielding "anthropic". -/
theorem c3_counterexample :
    chooseRoute "vendor/claude/v1" = "anthropic" ∧
    chooseRouteTrailingSeg "vendor/claude/v1" = "chat" := by
  exact ⟨by decide, by decide⟩

/-- C3 (amended): for every model id, route classification lowercases the
part after the FIRST slash (Go SplitN with limit 2) — not the last — and
tests it against the ordered rules with first-match-wins semantics: contains
"claude" yields anthropic, then "gemini" yields gemini, then "codex" yields
responses, then gpt-5.1/5.2/5.3 yields responses, and "chat" otherwise; in
particular whenever the classified text contains "claude" (for example a
model id containing both "claude" and "gemini") the route is anthropic,
because the claude rule is earlier. -/
theorem c3_route_first_match (m : String) :
    (chooseRoute m =
      (if strContains (routeActual m) "claude" then "anthropic"
       else if strContains (routeActual m) "gemini" then "gemini"
       else if strContains (routeActual m) "codex" then "responses"
       else if strContains (routeActual m) "gpt-5.1" || strContains (routeActual m) "gpt-5.2"
              || strContains (routeActual m) "gpt-5.3" then "responses"
       else "chat")) ∧
    (strContains (routeActual m) "claude" = true → chooseRoute m = "anthropic") := by
  cases h1 : strContains (routeActual m) "claude" <;>
    cases h2 : strContains (routeActual m) "gemini" <;>
      cases h3 : strContains (routeActual m) "codex" <;>
        cases h4 : (strContains (routeActual m) "gpt-5.1" || strContains (routeActual m) "gpt-5.2"
            || strContains (routeActual m) "gpt-5.3") <;>
          constructor <;>
            simp [chooseRoute, routeRules, List.find?, h1, h2, h3, h4]

/-- C3 witness for the amended theorem: a model id containing both "claude"
and "gemini" after its first slash resolves to anthropic. -/
theorem c3_route_first_match_witness :
    strContains (routeActual "x/claude-gemini") "claude" = true ∧
    chooseRoute "x/claude-gemini" = "anthropic" :=
  ⟨by decide, (c3_route_first_match "x/claude-gemini").2 (by decide)⟩

/-- C2 counterexample: a 201 response whose body is clean and has
extractable text is classified a failure by the code — success requires the
status to be exactly 200, not merely 2xx as the claim states. -/
theorem c2_counterexample :
    (validate "chat" "m" 0 "chat" ⟨201, "", chatBodyHi, 5⟩ extractTextFromChat).success = false ∧
    (200 ≤ (201 : Int) ∧ (201 : Int) < 300) ∧
    checkResponseBodyForError chatBodyHi = "" ∧
    extractTextFromChat chatBodyHi = "hi" := by
  exact ⟨by decide, by decide, by decide, by decide⟩

/-- C2 (amended): a probe is a success exactly when the HTTP status is 200
(not any 2xx), the body does not match an error shape, and the extractor
finds non-empty text; any received response — including non-200 and 2xx
statuses other than 200 — yields transport_success = true with the status
code recorded, the successful content is the extracted text, and a
transport-level failure yields transport_success = false, success = false
and no status code, carrying the transport error text. -/
theorem c2_probe_classification (route modelID endpoint errMsg : String) (now : Rat)
    (res : HttpResult) (extractor : JValue → String) :
    ((detectOneOutcome route modelID now endpoint none errMsg extractor).transportSuccess = false ∧
     (detectOneOutcome route modelID now endpoint none errMsg extractor).success = false ∧
     (detectOneOutcome route modelID now endpoint none errMsg extractor).statusCode = none ∧
     (detectOneOutcome route modelID now endpoint none errMsg extractor).error = some errMsg) ∧
    detectOneOutcome route modelID now endpoint (some res) errMsg extractor
      = validate route modelID now endpoint res extractor ∧
    ((validate route modelID now endpoint res extractor).success = true ↔
      res.statusCode = 200 ∧ checkResponseBodyForError res.jsonBody = "" ∧
        extractor res.jsonBody ≠ "") ∧
    (validate route modelID now endpoint res extractor).transportSuccess = true ∧
    (validate route modelID now endpoint res extractor).statusCode = some res.statusCode ∧
    ((validate route modelID now endpoint res extractor).success = true →
      (validate route modelID now endpoint res extractor).content = extractor res.jsonBody) := by
  refine ⟨⟨rfl, rfl, rfl, rfl⟩, rfl, ?_, ?_, ?_, ?_⟩ <;>
    · unfold validate
      split_ifs with h1 h2 h3 <;> simp_all [buildFail]

/-- C2 witness: a 200 response with a clean chat body is a success whose
content is the extracted text. -/
theorem c2_probe_classification_witness :
    (validate "chat" "m" 0 "chat" ⟨200, "", chatBodyHi, 5⟩ extractTextFromChat).success = true ∧
    (validate "chat" "m" 0 "chat" ⟨200, "", chatBodyHi, 5⟩ extractTextFromChat).content
      = extractTextFromChat chatBodyHi := by
  have h := c2_probe_classification "chat" "m" "chat" "" 0 ⟨200, "", chatBodyHi, 5⟩
    extractTextFromChat
  have hs : (validate "chat" "m" 0 "chat" ⟨200, "", chatBodyHi, 5⟩ extractTextFromChat).success
      = true :=
    h.2.2.1.mpr ⟨rfl, by decide, by decide⟩
  exact ⟨hs, h.2.2.2.2.2 hs⟩

set_option maxRecDepth 8192 in
/-- C6 counterexample: a body whose `error` field is a 601-character string
yields that string as the derived message without truncation, and the
recorded probe error is "HTTP 500: " followed by all 601 characters —
contradicting the claim that the derived message is truncated to 500. -/
theorem c6_counterexample :
    checkResponseBodyForError (.jobj [("error", .jstr longErrMsg)]) = longErrMsg ∧
    failMsgFromResponse ⟨500, "", .jobj [("error", .jstr longErrMsg)], 0⟩ = longErrMsg ∧
    (validate "chat" "m" 0 "chat" ⟨500, "", .jobj [("error", .jstr longErrMsg)], 0⟩
        extractTextFromChat).error = some ("HTTP 500: " ++ longErrMsg) ∧
    500 < longErrMsg.length := by
  exact ⟨by decide, by decide, by decide, by decide⟩

/-- C6 (amended): the failure message for a non-200 response is derived from
the body by checking, in order, an `error` field that is a string (returned
as-is, untruncated) or an object whose non-empty string `message` is
returned as-is (the object being marshalled and truncated to 500 bytes when
it has no usable message), then `success:false` with a string `message`,
then a nonzero/non-200 `code` with a string `message` (formatted
"[code] message"); when no shape matches, the raw body text truncated to
500 bytes is used, and "unknown error" when that is empty; the recorded
probe error is "HTTP <status>: " followed by the derived message. -/
theorem c6_error_message_derivation (m em : List (String × JValue)) (s msg anyS : String)
    (c : Int) (res : HttpResult) (route modelID endpoint : String) (now : Rat)
    (extractor : JValue → String) :
    (m.lookup "error" = some (.jstr s) → checkResponseBodyForError (.jobj m) = s) ∧
    (m.lookup "error" = some (.jobj em) → em.lookup "message" = some (.jstr msg) → msg ≠ "" →
      checkResponseBodyForError (.jobj m) = msg) ∧
    (m.lookup "error" = some (.jobj em) → em.lookup "message" = none →
      checkResponseBodyForError (.jobj m) = truncStr (goMarshal (.jobj em)) 500) ∧
    (m.lookup "error" = none → m.lookup "success" = some (.jbool false) →
      m.lookup "message" = some (.jstr msg) →
      checkResponseBodyForError (.jobj m) = msg) ∧
    (m.lookup "error" = none → m.lookup "success" = none →
      m.lookup "code" = some (.jnum c) → c ≠ 0 → c ≠ 200 →
      m.lookup "message" = some (.jstr msg) →
      checkResponseBodyForError (.jobj m) = "[" ++ toString c ++ "] " ++ msg) ∧
    (checkResponseBodyForError res.jsonBody ≠ "" →
      failMsgFromResponse res = checkResponseBodyForError res.jsonBody) ∧
    (checkResponseBodyForError res.jsonBody = "" → res.text ≠ "" →
      failMsgFromResponse res = truncStr res.text 500) ∧
    (checkResponseBodyForError res.jsonBody = "" → res.text = "" →
      failMsgFromResponse res = "unknown error") ∧
    (truncStr anyS 500).length ≤ 500 ∧
    (res.statusCode ≠ 200 →
      (validate route modelID now endpoint res extractor).error
        = some ("HTTP " ++ toString res.statusCode ++ ": " ++ failMsgFromResponse res)) := by
  refine ⟨?_, ?_, ?_, ?_, ?_, ?_, ?_, ?_, ?_, ?_⟩
  · intro h
    simp [checkResponseBodyForError, checkErrField, h]
  · intro h h2 h3
    simp [checkResponseBodyForError, checkErrField, h, h2, h3]
  · intro h h2
    simp [checkResponseBodyForError, checkErrField, h, h2]
  · intro h h2 h3
    simp [checkResponseBodyForError, checkErrField, checkSuccessField, h, h2, h3]
  · intro h h2 h3 h4 h5 h6
    simp [checkResponseBodyForError, checkErrField, checkSuccessField, checkCodeField,
      h, h2, h3, h4, h5, h6]
  · intro h
    simp [failMsgFromResponse, h]
  · intro h h2
    have hne : truncStr res.text 500 ≠ "" := by
      unfold truncStr
      split_ifs with hlen
      · intro hc
        have h5 : (res.text.toList.take 500).length = 0 :=
          congrArg String.length hc
        rw [List.length_take] at h5
        have h6 : 500 < res.text.toList.length := hlen
        omega
      · exact h2
    simp [failMsgFromResponse, h, hne]
  · intro h h2
    simp [failMsgFromResponse, h, h2, truncStr]
  · unfold truncStr
    split_ifs with hlen
    · exact List.length_take_le 500 anyS.toList
    · omega
  · intro h
    unfold validate
    rw [if_pos h]
    simp [buildFail]

/-- C6 witness: the shapes of the claim at concrete bodies — string error, object
error with message, success:false with message, nonzero code with message,
raw-body fallback, and the unknown-error fallback. -/
theorem c6_error_message_derivation_witness :
    checkResponseBodyForError (.jobj [("error", .jstr "boom")]) = "boom" ∧
    checkResponseBodyForError (.jobj [("error", .jobj [("message", .jstr "bad key")])]) = "bad key" ∧
    checkResponseBodyForError (.jobj [("success", .jbool false), ("message", .jstr "nope")]) = "nope" ∧
    checkResponseBodyForError (.jobj [("code", .jnum 500), ("message", .jstr "oops")]) = "[500] oops" ∧
    failMsgFromResponse ⟨502, "bad gateway", .jnull, 0⟩ = truncStr "bad gateway" 500 ∧
    failMsgFromResponse ⟨502, "", .jnull, 0⟩ = "unknown error" := by
  have h1 := c6_error_message_derivation [("error", .jstr "boom")] [] "boom" "" "" 0
    ⟨502, "bad gateway", .jnull, 0⟩ "chat" "m" "chat" 0 extractTextFromChat
  have h2 := c6_error_message_derivation [("error", .jobj [("message", .jstr "bad key")])]
    [("message", .jstr "bad key")] "" "bad key" "" 0
    ⟨502, "", .jnull, 0⟩ "chat" "m" "chat" 0 extractTextFromChat
  have h3 := c6_error_message_derivation [("success", .jbool false), ("message", .jstr "nope")]
    [] "" "nope" "" 0 ⟨502, "", .jnull, 0⟩ "chat" "m" "chat" 0 extractTextFromChat
  have h4 := c6_error_message_derivation [("code", .jnum 500), ("message", .jstr "oops")]
    [] "" "oops" "" 500 ⟨502, "", .jnull, 0⟩ "chat" "m" "chat" 0 extractTextFromChat
  refine ⟨h1.1 (by rfl), h2.2.1 (by rfl) (by rfl) (by decide),
    h3.2.2.2.1 (by rfl) (by rfl) (by rfl),
    h4.2.2.2.2.1 (by rfl) (by rfl) (by rfl) (by decide) (by decide) (by rfl),
    h1.2.2.2.2.2.2.1 (by decide) (by decide),
    h2.2.2.2.2.2.2.2.1 (by decide) (by rfl)⟩

/-- C4: terminal aggregation satisfies fail = total - success (with success
at most total), and the cached target status is "no_models" when total = 0,
"healthy" when fail = 0 and total > 0, "down" when success = 0 and
total > 0, and "degraded" when 0 < success < total. -/
theorem c4_run_aggregation (rows : List DetectionResult) :
    (runTotals rows).2.2 = (runTotals rows).1 - (runTotals rows).2.1 ∧
    (runTotals rows).2.1 ≤ (runTotals rows).1 ∧
    ((runTotals rows).1 = 0 →
      targetStatusOf (runTotals rows).1 (runTotals rows).2.1 (runTotals rows).2.2 = "no_models") ∧
    (0 < (runTotals rows).1 → (runTotals rows).2.2 = 0 →
      targetStatusOf (runTotals rows).1 (runTotals rows).2.1 (runTotals rows).2.2 = "healthy") ∧
    (0 < (runTotals rows).1 → (runTotals rows).2.1 = 0 →
      targetStatusOf (runTotals rows).1 (runTotals rows).2.1 (runTotals rows).2.2 = "down") ∧
    (0 < (runTotals rows).2.1 → (runTotals rows).2.1 < (runTotals rows).1 →
      targetStatusOf (runTotals rows).1 (runTotals rows).2.1 (runTotals rows).2.2 = "degraded") := by
  have hle : (rows.filter (fun r => r.success)).length ≤ rows.length :=
    List.length_filter_le _ _
  refine ⟨rfl, hle, ?_, ?_, ?_, ?_⟩
  · intro h0
    simp only [runTotals, targetStatusOf] at *
    simp [h0]
  · intro hpos hfail
    simp only [runTotals, targetStatusOf] at *
    rw [if_neg (by omega), if_pos hfail]
  · intro hpos hsucc
    simp only [runTotals, targetStatusOf] at *
    rw [if_neg (by omega), if_neg (by omega), if_pos hsucc]
  · intro hs hst
    simp only [runTotals, targetStatusOf] at *
    rw [if_neg (by omega), if_neg (by omega), if_neg (by omega)]

/-- C4 witness: one failing and one succeeding row give total 2, success 1,
fail 1 and status "degraded"; two succeeding rows give "healthy". -/
theorem c4_run_aggregation_witness :
    (let rows := [detectOneOutcome "chat" "m" 0 "chat" none "boom" extractTextFromChat,
                  detectOneOutcome "chat" "m" 0 "chat" (some ⟨200, "", chatBodyHi, 5⟩) ""
                    extractTextFromChat]
     targetStatusOf (runTotals rows).1 (runTotals rows).2.1 (runTotals rows).2.2 = "degraded") := by
  have h := c4_run_aggregation
    [detectOneOutcome "chat" "m" 0 "chat" none "boom" extractTextFromChat,
     detectOneOutcome "chat" "m" 0 "chat" (some ⟨200, "", chatBodyHi, 5⟩) "" extractTextFromChat]
  exact h.2.2.2.2.2 (by decide) (by decide)

/-- C5 counterexample: the allow-list [" "] is non-empty, and the model "a"
is not present in it, so the claim as stated filters everything out; the
source trims entries, drops blanks, and — the surviving set being empty —
keeps every model. -/
theorem c5_counterexample :
    filterModelsBySelection ["a"] [" "] = ["a"] ∧
    filterModelsClaimC5 ["a"] [" "] = [] := by
  exact ⟨rfl, rfl⟩

/-- C5 (amended): allow-list entries are trimmed and blank entries dropped;
an empty allow-list — or one whose entries are all blank — keeps every
model, and otherwise exactly the upstream models present in the trimmed
allow-list are kept, preserving upstream order (the output is a sublist of
the input; the example of the claim holds); the filtered list is then truncated
to the max-models cap when that cap is positive. -/
theorem c5_model_filter (models selected : List String) (maxModels : Int) :
    (selected = [] → filterModelsBySelection models selected = models) ∧
    ((selected.map strTrim).filter (fun s => s != "") = [] →
      filterModelsBySelection models selected = models) ∧
    (∀ allowed, allowed = (selected.map strTrim).filter (fun s => s != "") →
      allowed ≠ [] →
      filterModelsBySelection models selected = models.filter (fun m => allowed.contains m)) ∧
    (filterModelsBySelection models selected).Sublist models ∧
    filterModelsBySelection ["gpt-4o", "gpt-4.1", "claude-3-7"] ["claude-3-7", "gpt-4o"]
      = ["gpt-4o", "claude-3-7"] ∧
    (0 < maxModels → applyMaxModels models maxModels = models.take maxModels.toNat) ∧
    (0 < maxModels → ((applyMaxModels models maxModels).length : Int) ≤ maxModels) := by
  refine ⟨?_, ?_, ?_, ?_, rfl, ?_, ?_⟩
  · intro h
    simp [filterModelsBySelection, h]
  · intro h
    unfold filterModelsBySelection
    by_cases hm : models.isEmpty || selected.isEmpty
    · simp [hm]
    · simp only [hm, if_false]
      simp [h]
  · intro allowed hall hne
    unfold filterModelsBySelection
    have hsel : selected ≠ [] := by
      intro hc
      rw [hc] at hall
      simp at hall
      exact hne hall
    by_cases hm : models = []
    · subst hm
      simp
    · have : (models.isEmpty || selected.isEmpty) = false := by
        simp [List.isEmpty_iff, hm, hsel]
      simp only [this, if_false]
      rw [← hall]
      have : allowed.isEmpty = false := by simp [List.isEmpty_iff, hne]
      simp [this]
  · unfold filterModelsBySelection
    by_cases hm : models.isEmpty || selected.isEmpty
    · simp [hm]
    · simp only [hm, if_false]
      by_cases ha : ((selected.map strTrim).filter (fun s => s != "")).isEmpty
      · simp [ha]
      · simp only [ha, if_false]
        exact List.filter_sublist _
  · intro hpos
    unfold applyMaxModels
    by_cases hlen : maxModels < (models.length : Int)
    · simp [hpos, hlen]
    · simp only [hpos, true_and, hlen, if_false]
      have : models.length ≤ maxModels.toNat := by omega
      rw [List.take_of_length_le this]
  · intro hpos
    unfold applyMaxModels
    by_cases hlen : maxModels < (models.length : Int)
    · simp only [hpos, true_and, hlen, if_true]
      have := List.length_take_le maxModels.toNat models
      omega
    · simp only [hpos, true_and, hlen, if_false]
      omega

/-- C5 witness: the amended filter applied to the example in the claim, and the
cap 2 truncating a three-model list. -/
theorem c5_model_filter_witness :
    filterModelsBySelection ["gpt-4o", "gpt-4.1", "claude-3-7"] ["claude-3-7", "gpt-4o"]
      = ["gpt-4o", "gpt-4.1", "claude-3-7"].filter
          (fun m => [strTrim "claude-3-7", strTrim "gpt-4o"].contains m) ∧
    applyMaxModels ["a", "b", "c"] 2 = ["a", "b", "c"].take (Int.toNat 2) := by
  have h := c5_model_filter ["gpt-4o", "gpt-4.1", "claude-3-7"] ["claude-3-7", "gpt-4o"] 2
  refine ⟨h.2.2.1 _ (by rfl) (by decide), ?_⟩
  have h2 := c5_model_filter ["a", "b", "c"] [] 2
  exact h2.2.2.2.2.2.1 (by decide)

/-- C10: the gateway reads at most proxyBodyMaxBytes = 10485760 bytes of an
inbound body; an oversize body is not an error — the handler keeps exactly
the first 10 MiB, hands that prefix to model extraction (when the path did
not force a model), and forwards that same prefix upstream. -/
theorem c10_body_cap (extract : List Nat → String) (forcedModel : String) (body : List Nat) :
    proxyBodyMaxBytes = 10485760 ∧
    (handleProxyBody extract forcedModel body).1.length ≤ proxyBodyMaxBytes ∧
    (handleProxyBody extract forcedModel body).1 = body.take proxyBodyMaxBytes ∧
    (body.length ≤ proxyBodyMaxBytes → (handleProxyBody extract forcedModel body).1 = body) ∧
    (strTrim forcedModel = "" →
      (handleProxyBody extract forcedModel body).2 = extract (body.take proxyBodyMaxBytes)) := by
  refine ⟨rfl, ?_, rfl, ?_, ?_⟩
  · exact List.length_take_le proxyBodyMaxBytes body
  · intro h
    simp [handleProxyBody, readCappedBody, List.take_of_length_le h]
  · intro h
    simp [handleProxyBody, readCappedBody, h]

/-- C10 witness: a three-byte body passes through unchanged and is what the
extractor sees. -/
theorem c10_body_cap_witness :
    (handleProxyBody (fun _ => "gpt-4o") "" [1, 2, 3]).1 = [1, 2, 3] ∧
    (handleProxyBody (fun _ => "gpt-4o") "" [1, 2, 3]).2
      = (fun _ : List Nat => "gpt-4o") ([1, 2, 3].take proxyBodyMaxBytes) := by
  have h := c10_body_cap (fun _ => "gpt-4o") "" [1, 2, 3]
  exact ⟨h.2.2.2.1 (by decide), h.2.2.2.2 (by rfl)⟩

/-- One scheduler step preserves distinctness of the in-flight set: a
trigger inserts only after the already-running check, a finish filters. -/
theorem monStep_nodup (db : Int → Option MSTarget) (maxParallel : Nat)
    (st : MonState) (ev : MonEvent) (h : st.running.Nodup) :
    (monStep db maxParallel st ev).running.Nodup := by
  cases ev with
  | trigger id f =>
    show (triggerTarget db maxParallel st id f).state.running.Nodup
    unfold triggerTarget
    cases hdb : db id with
    | none => exact h
    | some t =>
      dsimp only
      split_ifs with h1 h2 h3
      · exact h
      · exact h
      · exact h
      · refine List.nodup_cons.mpr ⟨?_, h⟩
        intro hmem
        exact h2 (List.elem_eq_true_of_mem hmem)
  | finish id => exact h.filter _

/-- Every interleaving of triggers and finishes keeps the in-flight set
duplicate-free. -/
theorem monRun_nodup (db : Int → Option MSTarget) (maxParallel : Nat)
    (evs : List MonEvent) : (monRun db maxParallel evs).running.Nodup := by
  suffices hgen : ∀ st : MonState, st.running.Nodup →
      (evs.foldl (monStep db maxParallel) st).running.Nodup by
    exact hgen monInit (by simp [monInit])
  induction evs with
  | nil => intro st h; exact h
  | cons e es ih =>
    intro st h
    exact ih _ (monStep_nodup db maxParallel st e h)

/-- C1 counterexample: with cap 1, two forced triggers put two targets in
flight; a scheduled trigger of a third, enabled, not-running target is then
refused with "max parallel targets reached" although the in-flight count (2)
does not EQUAL the cap (1) — the code tests ≥, and forced triggers may
exceed the cap, so the "equals" reading of the claim is violated. -/
theorem c1_counterexample :
    (triggerTarget dbThree 1 monInit 1 true).ok = true ∧
    (triggerTarget dbThree 1 (triggerTarget dbThree 1 monInit 1 true).state 2 true).ok = true ∧
    (triggerTarget dbThree 1
        (triggerTarget dbThree 1 (triggerTarget dbThree 1 monInit 1 true).state 2 true).state
        3 false).ok = false ∧
    (triggerTarget dbThree 1
        (triggerTarget dbThree 1 (triggerTarget dbThree 1 monInit 1 true).state 2 true).state
        3 false).msg = "max parallel targets reached" ∧
    dbThree 3 = some ⟨true⟩ ∧
    ((triggerTarget dbThree 1 (triggerTarget dbThree 1 monInit 1 true).state 2 true).state
      |>.running.contains 3) = false ∧
    ((triggerTarget dbThree 1 (triggerTarget dbThree 1 monInit 1 true).state 2 true).state
      |>.running.length) = 2 ∧
    ¬ ((triggerTarget dbThree 1 (triggerTarget dbThree 1 monInit 1 true).state 2 true).state
      |>.running.length) = 1 := by
  decide

/-- C1 (amended): TriggerTarget fails with "target not found" when the
target is absent, "target disabled" when force is off and the target
disabled, "target already running" when a run for the id is in flight, and
"max parallel targets reached" when force is off and the in-flight count is
AT LEAST the cap (forced triggers bypass the cap and can push the count
beyond it); otherwise it marks the target in flight and reports "target
started"; the finish step removes exactly the mark of that id; and under every
interleaving of forced and scheduled triggers and finishes, at most one run
is in flight per target id. -/
theorem c1_trigger_exclusive (db : Int → Option MSTarget) (maxParallel : Nat)
    (st : MonState) (targetID : Int) (force : Bool) (evs : List MonEvent) :
    (db targetID = none →
      triggerTarget db maxParallel st targetID force = ⟨st, false, "target not found"⟩) ∧
    (∀ t, db targetID = some t → force = false → t.enabled = false →
      triggerTarget db maxParallel st targetID force = ⟨st, false, "target disabled"⟩) ∧
    (∀ t, db targetID = some t → (force || t.enabled) = true →
      st.running.contains targetID = true →
      triggerTarget db maxParallel st targetID force
        = ⟨st, false, "target already running"⟩) ∧
    (∀ t, db targetID = some t → t.enabled = true → force = false →
      st.running.contains targetID = false → maxParallel ≤ st.running.length →
      triggerTarget db maxParallel st targetID force
        = ⟨st, false, "max parallel targets reached"⟩) ∧
    (∀ t, db targetID = some t → (force || t.enabled) = true →
      st.running.contains targetID = false →
      (force = true ∨ st.running.length < maxParallel) →
      triggerTarget db maxParallel st targetID force
        = ⟨⟨targetID :: st.running⟩, true, "target started"⟩) ∧
    (finishRun st targetID).running.contains targetID = false ∧
    (∀ j, j ≠ targetID → (j ∈ (finishRun st targetID).running ↔ j ∈ st.running)) ∧
    (monRun db maxParallel evs).running.Nodup ∧
    (∀ i, (monRun db maxParallel evs).running.count i ≤ 1) := by
  refine ⟨?_, ?_, ?_, ?_, ?_, ?_, ?_, monRun_nodup db maxParallel evs, ?_⟩
  · intro h
    simp [triggerTarget, h]
  · intro t ht hf he
    simp [triggerTarget, ht, hf, he]
  · intro t ht hfe hc
    unfold triggerTarget
    rw [ht]
    cases force <;> cases he : t.enabled <;> simp_all
  · intro t ht he hf hc hcap
    unfold triggerTarget
    rw [ht]
    subst hf
    simp_all
  · intro t ht hfe hc hroom
    unfold triggerTarget
    rw [ht]
    rcases hroom with hforce | hlen
    · subst hforce
      simp_all
    · cases force <;> cases he : t.enabled <;> simp_all [Nat.not_le.mpr hlen]
  · have : targetID ∉ (finishRun st targetID).running := by
      simp [finishRun, List.mem_filter]
    simpa using this
  · intro j hj
    simp [finishRun, List.mem_filter, hj]
  · intro i
    exact List.nodup_iff_count_le_one.mp (monRun_nodup db maxParallel evs) i

/-- C1 witness: a scheduled trigger on an empty scheduler with cap 2 starts
target 1, and a trace with a forced duplicate trigger of target 1 keeps at
most one in-flight mark for id 1. -/
theorem c1_trigger_exclusive_witness :
    triggerTarget dbThree 2 monInit 1 false = ⟨⟨[1]⟩, true, "target started"⟩ ∧
    (monRun dbThree 2
        [.trigger 1 false, .trigger 1 true, .trigger 2 true, .finish 1]).running.count 1 ≤ 1 := by
  have h := c1_trigger_exclusive dbThree 2 monInit 1 false
    [.trigger 1 false, .trigger 1 true, .trigger 2 true, .finish 1]
  exact ⟨h.2.2.2.2.1 ⟨true⟩ (by decide) (by decide) (by decide) (Or.inr (by decide)),
    h.2.2.2.2.2.2.2.2 1⟩

/-- Folding failures whose instants stay within the window of the open
window start t0 never resets the window: the count just accumulates, the
block is armed exactly when the count reaches the policy threshold, and the
last-failure time tracks the last instant. -/
theorem applyFailures_open_window (pol : AuthPolicy) (t0 : Int) :
    ∀ (ts : List Int) (c : Nat) (l : Int),
      (∀ t ∈ ts, t - t0 ≤ pol.window) → 1 ≤ c → c + ts.length ≤ pol.maxFailures →
      applyFailures pol ts (some ⟨some t0, c, none, some l⟩)
        = some ⟨some t0, c + ts.length,
            (if pol.maxFailures ≤ c + ts.length ∧ ts ≠ [] then some (lastD ts l + pol.blockFor)
             else none),
            some (lastD ts l)⟩ := by
  intro ts
  induction ts with
  | nil =>
    intro c l h h1 h2
    simp [applyFailures, lastD]
  | cons t ts2 ih =>
    intro c l h h1 h2
    have hw : ¬ pol.window < t - t0 := not_lt.mpr (h t (by simp))
    have hstep : recordFailure pol t (some ⟨some t0, c, none, some l⟩)
        = (if pol.maxFailures ≤ c + 1
           then (⟨some t0, c + 1, some (t + pol.blockFor), some t⟩ : AuthEntry)
           else ⟨some t0, c + 1, none, some t⟩) := by
      by_cases hmax : pol.maxFailures ≤ c + 1 <;> simp [recordFailure, hw, hmax]
    have hfold : applyFailures pol (t :: ts2) (some ⟨some t0, c, none, some l⟩)
        = applyFailures pol ts2 (some (recordFailure pol t (some ⟨some t0, c, none, some l⟩))) :=
      rfl
    rw [hfold, hstep]
    by_cases hmax : pol.maxFailures ≤ c + 1
    · have hnil : ts2 = [] := by
        have := h2
        simp only [List.length_cons] at this
        have : ts2.length = 0 := by omega
        exact List.length_eq_zero.mp this
      subst hnil
      rw [if_pos hmax]
      simp [applyFailures, lastD]
      omega
    · rw [if_neg hmax]
      have ih2 := ih (c + 1) t (fun t2 ht2 => h t2 (by simp [ht2])) (by omega)
        (by simp only [List.length_cons] at h2; omega)
      rw [ih2]
      have harith : c + 1 + ts2.length = c + (t :: ts2).length := by
        simp only [List.length_cons]
        omega
      rw [harith]
      by_cases hnil : ts2 = []
      · subst hnil
        rw [if_neg (by simp), if_neg (by simp only [List.length_cons, List.length_nil]; omega)]
        rfl
      · by_cases hmax2 : pol.maxFailures ≤ c + (t :: ts2).length
        · rw [if_pos ⟨hmax2, hnil⟩, if_pos ⟨hmax2, by simp⟩]
          rfl
        · rw [if_neg (by tauto), if_neg (by tauto)]
          rfl

/-- C7: for every policy and (scope, IP) entry under an explicit clock —
(1) fewer than max-failures RecordFailure calls within the policy window of
the first leave the entry unblocked, so IsBlocked is false at every instant;
(2) the call that brings the count to max-failures arms
blockedUntil = now + blockFor, and IsBlocked at that instant reports blocked
with the positive remainder blockFor; (3) a failure finding the open window
start older than the policy window, or finding an expired block, starts a
fresh window at now with count 1; (4) Clear removes the entry outright, so
IsBlocked is false immediately at any instant. -/
theorem c7_auth_failure_protector (pol : AuthPolicy) (t0 now b : Int) (ts : List Int)
    (e : AuthEntry) :
    ((∀ t ∈ ts, t - t0 ≤ pol.window) → 1 + ts.length < pol.maxFailures →
      applyFailures pol (t0 :: ts) none
        = some ⟨some t0, 1 + ts.length, none, some (lastD ts t0)⟩ ∧
      (isBlocked pol now (applyFailures pol (t0 :: ts) none)).1.1 = false) ∧
    ((∀ t ∈ ts, t - t0 ≤ pol.window) → 1 + ts.length = pol.maxFailures → 0 < pol.blockFor →
      applyFailures pol (t0 :: ts) none
        = some ⟨some t0, 1 + ts.length, some (lastD ts t0 + pol.blockFor), some (lastD ts t0)⟩ ∧
      (isBlocked pol (lastD ts t0) (applyFailures pol (t0 :: ts) none)).1
        = (true, pol.blockFor) ∧ 0 < pol.blockFor) ∧
    (e.blockedUntil = none → e.firstFail = some b → pol.window < now - b →
      (recordFailure pol now (some e)).failCount = 1 ∧
      (recordFailure pol now (some e)).firstFail = some now) ∧
    (e.blockedUntil = some b → b ≤ now →
      (recordFailure pol now (some e)).failCount = 1 ∧
      (recordFailure pol now (some e)).firstFail = some now) ∧
    (isBlocked pol now clearEntry).1 = (false, 0) := by
  have hfirst : ∀ hm : ¬ pol.maxFailures ≤ 1,
      recordFailure pol t0 none = (⟨some t0, 1, none, some t0⟩ : AuthEntry) := by
    intro hm
    simp [recordFailure, hm]
  refine ⟨?_, ?_, ?_, ?_, rfl⟩
  · intro hw hcnt
    have hm1 : ¬ pol.maxFailures ≤ 1 := by omega
    have hfold : applyFailures pol (t0 :: ts) none
        = applyFailures pol ts (some (recordFailure pol t0 none)) := rfl
    have happ : applyFailures pol (t0 :: ts) none
        = some ⟨some t0, 1 + ts.length, none, some (lastD ts t0)⟩ := by
      rw [hfold, hfirst hm1,
        applyFailures_open_window pol t0 ts 1 t0 hw (by omega) (by omega)]
      rw [if_neg (by rintro ⟨hA, -⟩; omega)]
    refine ⟨happ, ?_⟩
    rw [happ]
    unfold isBlocked
    dsimp only
    split_ifs <;> rfl
  · intro hw hcnt hbf
    have happ : applyFailures pol (t0 :: ts) none
        = some ⟨some t0, 1 + ts.length, some (lastD ts t0 + pol.blockFor),
            some (lastD ts t0)⟩ := by
      by_cases hm1 : pol.maxFailures ≤ 1
      · have hnil : ts = [] := by
          have : ts.length = 0 := by omega
          exact List.length_eq_zero.mp this
        subst hnil
        show some (recordFailure pol t0 none) = _
        simp [recordFailure, hm1, lastD]
      · have hfold : applyFailures pol (t0 :: ts) none
            = applyFailures pol ts (some (recordFailure pol t0 none)) := rfl
        rw [hfold, hfirst hm1,
          applyFailures_open_window pol t0 ts 1 t0 hw (by omega) (by omega)]
        have hnil : ts ≠ [] := by
          intro hc
          subst hc
          simp at hcnt
          omega
        rw [if_pos ⟨by omega, hnil⟩]
    refine ⟨happ, ?_, hbf⟩
    rw [happ]
    unfold isBlocked
    dsimp only
    rw [if_pos (show lastD ts t0 < lastD ts t0 + pol.blockFor by omega)]
    have hsub : lastD ts t0 + pol.blockFor - lastD ts t0 = pol.blockFor := by omega
    rw [hsub]
  · intro hbu hff hw
    constructor <;>
      simp [recordFailure, hbu, hff, hw] <;>
        split_ifs <;> rfl
  · intro hbu hle
    have hnb : ¬ now < b := not_lt.mpr hle
    constructor <;>
      simp [recordFailure, hbu, hnb] <;>
        split_ifs <;> rfl

/-- C7 witness: with policy (window 60, max-failures 3, block 600) —
failures at instants 0 and 10 leave the IP unblocked, a third at 20 blocks
it for 600 ticks, and a cleared entry is unblocked at any instant. -/
theorem c7_auth_failure_protector_witness :
    applyFailures ⟨60, 3, 600⟩ [0, 10] none = some ⟨some 0, 2, none, some 10⟩ ∧
    (isBlocked ⟨60, 3, 600⟩ 10 (applyFailures ⟨60, 3, 600⟩ [0, 10] none)).1.1 = false ∧
    (isBlocked ⟨60, 3, 600⟩ 20 (applyFailures ⟨60, 3, 600⟩ [0, 10, 20] none)).1 = (true, 600) ∧
    (isBlocked ⟨60, 3, 600⟩ 9999 clearEntry).1 = (false, 0) := by
  have h1 := c7_auth_failure_protector ⟨60, 3, 600⟩ 0 10 0 [10] ⟨none, 0, none, none⟩
  have h2 := c7_auth_failure_protector ⟨60, 3, 600⟩ 0 20 0 [10, 20] ⟨none, 0, none, none⟩
  have p1 := h1.1 (by decide) (by decide)
  have p2 := h2.2.1 (by decide) (by decide) (by decide)
  exact ⟨p1.1, p1.2, p2.2.1, h1.2.2.2.2⟩

/-- C8: target resolution — the candidate set is exactly the enabled
targets passing the per-key target allow-list (empty allow-list keeps all
enabled targets); an empty candidate set fails with no-target regardless of
the request; an explicit target id is accepted exactly when it is among the
candidates, fails not-allowed when some target has that id but no candidate
does, and fails not-found when no target has the id at all; with no
explicit id but a model, the first candidate whose latest probe of the
model (case-insensitively) succeeded is preferred, then the first that ever
reported the model, then the first candidate. -/
theorem c8_resolve_target (targets : List PTarget) (statuses : Int → List PModelStatus)
    (allow : List Int) (model : String) (rid : Int) (c c0 : PTarget) (rest : List PTarget) :
    (∀ t2, t2 ∈ filterProxyCandidates targets allow ↔
      t2 ∈ targets ∧ t2.enabled = true ∧ (allow = [] ∨ t2.id ∈ allow)) ∧
    (filterProxyCandidates targets allow = [] → ∀ orid,
      resolveProxyTarget targets statuses allow model orid = .error .noTarget) ∧
    (targets.any (fun t2 => t2.id == rid) = false → ∀ t2 ∈ targets, t2.id ≠ rid) ∧
    (filterProxyCandidates targets allow = c0 :: rest →
      ((filterProxyCandidates targets allow).find? (fun c2 => c2.id == rid) = some c →
        resolveProxyTarget targets statuses allow model (some rid) = .ok c ∧
        c.id = rid ∧ c ∈ filterProxyCandidates targets allow) ∧
      ((filterProxyCandidates targets allow).find? (fun c2 => c2.id == rid) = none →
        targets.any (fun t2 => t2.id == rid) = true →
        resolveProxyTarget targets statuses allow model (some rid)
          = .error .targetNotAllowed) ∧
      ((filterProxyCandidates targets allow).find? (fun c2 => c2.id == rid) = none →
        targets.any (fun t2 => t2.id == rid) = false →
        resolveProxyTarget targets statuses allow model (some rid)
          = .error .targetNotFound) ∧
      (strTrim model ≠ "" →
        (filterProxyCandidates targets allow).find?
            (fun c2 => (statuses c2.id).any (fun ms => eqFold ms.model model && ms.success))
          = some c →
        resolveProxyTarget targets statuses allow model none = .ok c) ∧
      (strTrim model ≠ "" →
        (filterProxyCandidates targets allow).find?
            (fun c2 => (statuses c2.id).any (fun ms => eqFold ms.model model && ms.success))
          = none →
        (filterProxyCandidates targets allow).find?
            (fun c2 => (statuses c2.id).any (fun ms => eqFold ms.model model)) = some c →
        resolveProxyTarget targets statuses allow model none = .ok c) ∧
      (strTrim model ≠ "" →
        (filterProxyCandidates targets allow).find?
            (fun c2 => (statuses c2.id).any (fun ms => eqFold ms.model model && ms.success))
          = none →
        (filterProxyCandidates targets allow).find?
            (fun c2 => (statuses c2.id).any (fun ms => eqFold ms.model model)) = none →
        resolveProxyTarget targets statuses allow model none = .ok c0) ∧
      (strTrim model = "" →
        resolveProxyTarget targets statuses allow model none = .ok c0)) := by
  refine ⟨?_, ?_, ?_, ?_⟩
  · intro t2
    simp [filterProxyCandidates, List.mem_filter, List.isEmpty_iff]
  · intro hempty orid
    unfold resolveProxyTarget
    rw [hempty]
  · intro hany t2 ht2 hid
    rw [List.any_eq_false] at hany
    have := hany t2 ht2
    simp [hid] at this
  · intro hcand
    refine ⟨?_, ?_, ?_, ?_, ?_, ?_, ?_⟩
    · intro hfind
      have hp := List.find?_some hfind
      have hmem := List.mem_of_find?_eq_some hfind
      refine ⟨?_, by simpa using hp, hmem⟩
      rw [hcand] at hfind
      simp only [resolveProxyTarget]
      rw [hcand]
      dsimp only
      rw [hfind]
    · intro hfind hany
      rw [hcand] at hfind
      simp only [resolveProxyTarget]
      rw [hcand]
      dsimp only
      rw [hfind, if_pos hany]
    · intro hfind hany
      rw [hcand] at hfind
      simp only [resolveProxyTarget]
      rw [hcand]
      dsimp only
      rw [hfind, if_neg (by simp [hany])]
    · intro hm hfind
      rw [hcand] at hfind
      simp only [resolveProxyTarget]
      rw [hcand]
      dsimp only
      rw [if_pos hm, hfind]
    · intro hm hf1 hf2
      rw [hcand] at hf1 hf2
      simp only [resolveProxyTarget]
      rw [hcand]
      dsimp only
      rw [if_pos hm, hf1, hf2]
    · intro hm hf1 hf2
      rw [hcand] at hf1 hf2
      simp only [resolveProxyTarget]
      rw [hcand]
      dsimp only
      rw [if_pos hm, hf1, hf2]
    · intro hm
      simp only [resolveProxyTarget]
      rw [hcand]
      dsimp only
      rw [if_neg (by simp [hm])]

/-- C8 witness: among enabled targets 1 and 3 (2 is disabled), a request
for model "GPT-4o" with no explicit id resolves to target 3, whose latest
probe of that model succeeded, although target 1 comes first. -/
theorem c8_resolve_target_witness :
    resolveProxyTarget [⟨1, true⟩, ⟨2, false⟩, ⟨3, true⟩]
      (fun i => if i = 3 then [⟨"gpt-4o", true⟩] else [⟨"gpt-4o", false⟩])
      [] "GPT-4o" none = .ok ⟨3, true⟩ := by
  have h := c8_resolve_target [⟨1, true⟩, ⟨2, false⟩, ⟨3, true⟩]
    (fun i => if i = 3 then [⟨"gpt-4o", true⟩] else [⟨"gpt-4o", false⟩])
    [] "GPT-4o" 0 ⟨3, true⟩ ⟨1, true⟩ [⟨3, true⟩]
  exact (h.2.2.2 (by decide)).2.2.2.1 (by decide) (by decide)

/-- C9 counterexample: the code lowercases both the rule and the model, so
the case-mismatched literal "my-channel/GPT-4O" IS allowed by the allow-list
["my-channel/gpt-4o"] — the clause "a case-mismatched literal fails" is
false on the code (the repository carries a test expecting the opposite,
which the code does not satisfy). -/
theorem c9_counterexample :
    modelAllowed ["my-channel/gpt-4o"] "my-channel/GPT-4O" = true := by
  decide

/-- C9 (amended): an empty allow-list admits every model; matching depends
only on the trimmed lowercased strings (so it is case-insensitive, and a
case-mismatched literal SUCCEEDS); a non-empty allow-list never admits a
blank model; a rule containing a glob metacharacter is matched with
shell-glob semantics (Go path.Match, malformed patterns matching nothing)
against the lowercased model, any other rule must match it exactly; an
exact lowercase literal succeeds, and a model that merely resembles a glob
fails against a literal rule unless it is explicitly listed. -/
theorem c9_model_allowlist (allowed : List String) (model m1 m2 rule : String) :
    modelAllowed [] model = true ∧
    (strToLower (strTrim m1) = strToLower (strTrim m2) →
      modelAllowed allowed m1 = modelAllowed allowed m2) ∧
    (allowed ≠ [] → strToLower (strTrim model) = "" → modelAllowed allowed model = false) ∧
    (strContainsAny (strToLower (strTrim rule)) "*?[]" = true →
      strToLower (strTrim rule) ≠ "" → strToLower (strTrim model) ≠ "" →
      modelAllowed [rule] model
        = pathMatch (strToLower (strTrim rule)) (strToLower (strTrim model))) ∧
    (strContainsAny (strToLower (strTrim rule)) "*?[]" = false →
      strToLower (strTrim rule) ≠ "" → strToLower (strTrim model) ≠ "" →
      modelAllowed [rule] model
        = (strToLower (strTrim rule) == strToLower (strTrim model))) ∧
    modelAllowed ["gpt-4o"] "gpt-4o" = true ∧
    modelAllowed ["gpt-*"] "gpt-4o" = true ∧
    modelAllowed ["my-channel/gpt-4o"] "my-channel/gpt-*" = false ∧
    modelAllowed ["my-channel/gpt-4o", "my-channel/gpt-*"] "my-channel/gpt-*" = true := by
  refine ⟨rfl, ?_, ?_, ?_, ?_, by decide, by decide, by decide, by decide⟩
  · intro h
    simp only [modelAllowed]
    rw [h]
  · intro hne hblank
    have : allowed.isEmpty = false := by simp [List.isEmpty_iff, hne]
    simp [modelAllowed, this, hblank]
  · intro hglob hrule hmodel
    simp [modelAllowed, hglob, hrule, hmodel]
  · intro hglob hrule hmodel
    simp [modelAllowed, hglob, hrule, hmodel]

/-- C9 witness: a glob rule applied to a case-mismatched model reduces to
the shell-glob match of the lowercased strings, which succeeds. -/
theorem c9_model_allowlist_witness :
    modelAllowed ["gpt-*"] "GPT-4o"
      = pathMatch (strToLower (strTrim "gpt-*")) (strToLower (strTrim "GPT-4o")) ∧
    modelAllowed ["gpt-*"] "GPT-4o" = true := by
  have h := c9_model_allowlist [] "GPT-4o" "" "" "gpt-*"
  refine ⟨?_, by decide⟩
  exact h.2.2.2.1 (by decide) (by decide) (by decide)

end ApiMonitor
